import Mathlib

/-!
Verification development for the TMDB movies ETL pipeline (`main.py`).

The pipeline has four phases:
* Extract: `fetch_top_movies` (3 pages of a top-rated listing, fail-fast on a
  non-200 status, truncated to 50) and a loop fetching per-movie details and
  credits for every summary with a truthy id.
* Transform: builds deduplicated genre/people dictionaries (Python dicts,
  insertion order preserved, insert-if-absent), the movie-genre and
  movie-cast junction lists, a movie → director map resolved by the first
  crew member whose job is "Director", and the final movies table obtained
  by mapping the directors map over the ids and dropping rows with no entry.
* Load: five `to_sql(..., if_exists='replace')` calls against a SQLite file.
* Report: five fixed SQL queries run in one try/except/finally block.

Machine integers are modelled as `Int` (Python integers are unbounded);
calendar dates as a year/month/day record (the source parses its date
strings with `pd.to_datetime` before persisting); the floating-point
`vote_average` is carried opaquely as an `Int` since no verified claim
computes with it.
-/

namespace MoviesAPI

/-- A genre object of a detail payload: `{'id': ..., 'name': ...}`. -/
structure GenreEntry where
  id : Int
  name : String
deriving DecidableEq, Repr

/-- A cast object of a credits payload: id, name and character. -/
structure CastEntry where
  id : Int
  name : String
  character : String
deriving DecidableEq, Repr

/-- A crew object of a credits payload: id, name and job title. -/
structure CrewEntry where
  id : Int
  name : String
  job : String
deriving DecidableEq, Repr

/-- A calendar date, the result of `pd.to_datetime` on the date string. -/
structure Date where
  year : Nat
  month : Nat
  day : Nat
deriving DecidableEq, Repr

/-- One element of `all_movies_data`: the `combined_data` dictionary built in
the extract loop from a detail payload and a credits payload. -/
structure RawMovie where
  tmdb_id : Int
  title : String
  overview : String
  release_date : Date
  vote_average : Int
  genres : List GenreEntry
  cast : List CastEntry
  crew : List CrewEntry
deriving DecidableEq, Repr

/-! ## Fetcher -/

/-- One movie summary of a top-rated listing page; only its `id` (read with
`.get('id')`, hence optional) matters downstream. -/
structure MovieSummary where
  id : Option Int
  title : String
deriving DecidableEq, Repr

/-- The response a single listing-page request comes back with. -/
structure PageResponse where
  status_code : Nat
  results : List MovieSummary
deriving DecidableEq, Repr

/-- The page loop of `fetch_top_movies`: extend the accumulator with each
200 page's results; a non-200 page aborts with `none` (the early
`return []`). -/
def fetchPages : List PageResponse → List MovieSummary → Option (List MovieSummary)
  | [], acc => some acc
  | p :: ps, acc =>
    if p.status_code = 200 then fetchPages ps (acc ++ p.results) else none

/-- `fetch_top_movies()`: request the pages in order, concatenate the
results, truncate to 50; any failed page yields `[]`. -/
def fetch_top_movies (pages : List PageResponse) : List MovieSummary :=
  match fetchPages pages [] with
  | some l => l.take 50
  | none => []

/-! ## Extract loop -/

/-- A parsed detail payload, restricted to the fields the loop reads. -/
structure Details where
  id : Int
  title : String
  overview : String
  release_date : Date
  vote_average : Int
  genres : List GenreEntry
deriving DecidableEq, Repr

/-- A parsed credits payload. -/
structure Credits where
  cast : List CastEntry
  crew : List CrewEntry
deriving DecidableEq, Repr

/-- The `combined_data` dictionary built from a detail and credits pair. -/
def combineData (d : Details) (c : Credits) : RawMovie :=
  { tmdb_id := d.id
    title := d.title
    overview := d.overview
    release_date := d.release_date
    vote_average := d.vote_average
    genres := d.genres
    cast := c.cast
    crew := c.crew }

/-- Python truthiness of `movie_summary.get('id')`: `None` and `0` are
falsy, every other integer is truthy. -/
def truthyId : Option Int → Bool
  | none => false
  | some n => n != 0

/-- One iteration of the extract loop. The state is the list of movie ids a
detail/credits fetch was issued for, paired with `all_movies_data`. The
fetch oracle returns `none` when `fetch_movie_details` collapses to
`(None, None)`. -/
def extractStep (fetch : Int → Option (Details × Credits))
    (acc : List Int × List RawMovie) (s : MovieSummary) :
    List Int × List RawMovie :=
  match s.id with
  | none => acc
  | some mid =>
    if mid ≠ 0 then
      match fetch mid with
      | some (d, c) => (acc.1 ++ [mid], acc.2 ++ [combineData d c])
      | none => (acc.1 ++ [mid], acc.2)
    else acc

/-- The whole extract loop over the fetched summaries: returns the ids
fetched and the collected `all_movies_data`. -/
def extractPhase (fetch : Int → Option (Details × Credits))
    (summaries : List MovieSummary) : List Int × List RawMovie :=
  summaries.foldl (extractStep fetch) ([], [])

/-! ## Transform: dictionary primitives

Python dicts preserve insertion order, so they are modelled as association
lists where a fresh key is appended at the end. -/

/-- String-keyed membership test `k in d` on an `Int`-keyed dict. -/
def dictHasKey (d : List (Int × String)) (k : Int) : Bool :=
  d.any (fun e => e.1 == k)

/-- `if k not in d: d[k] = v` — the insert-if-absent idiom used for
`all_genres` and `all_people`. -/
def dictInsertIfAbsent (d : List (Int × String)) (k : Int) (v : String) :
    List (Int × String) :=
  if dictHasKey d k then d else d ++ [(k, v)]

/-- Dictionary read, `d.get(k)` / first entry with the key. -/
def dictLookup (d : List (Int × String)) (k : Int) : Option String :=
  (d.find? (fun e => e.1 == k)).map (fun e => e.2)

/-- Folding a stream of `(id, name)` encounters through insert-if-absent. -/
def dedupFold (d : List (Int × String)) (s : List (Int × String)) :
    List (Int × String) :=
  s.foldl (fun d e => dictInsertIfAbsent d e.1 e.2) d

/-- `d[k] = v` on the `Int → Int` dict `directors_map`: overwrite in place
when the key exists, append otherwise. -/
def dictSetI (d : List (Int × Int)) (k v : Int) : List (Int × Int) :=
  if d.any (fun e => e.1 == k) then
    d.map (fun e => if e.1 == k then (k, v) else e)
  else d ++ [(k, v)]

/-- Read of the `Int → Int` dict, as done by `Series.map(directors_map)`:
a missing key yields `none` (pandas NaN). -/
def dictLookupI (d : List (Int × Int)) (k : Int) : Option Int :=
  (d.find? (fun e => e.1 == k)).map (fun e => e.2)

/-! ## Transform: genres pass -/

/-- A row of `movie_genres_list`. -/
structure MovieGenreRow where
  movie_id : Int
  genre_id : Int
deriving DecidableEq, Repr

/-- The body of the genre loop for one movie: for each genre, insert into
`all_genres` if unseen and append the junction row unconditionally. -/
def genresStep (acc : List (Int × String) × List MovieGenreRow) (m : RawMovie) :
    List (Int × String) × List MovieGenreRow :=
  m.genres.foldl
    (fun acc g =>
      (dictInsertIfAbsent acc.1 g.id g.name,
       acc.2 ++ [{ movie_id := m.tmdb_id, genre_id := g.id }]))
    acc

/-- The first transform pass: builds `all_genres` and `movie_genres_list`. -/
def genresTransform (raw : List RawMovie) :
    List (Int × String) × List MovieGenreRow :=
  raw.foldl genresStep ([], [])

/-! ## Transform: people pass -/

/-- A row of `movie_cast_list`. -/
structure MovieCastRow where
  movie_id : Int
  person_id : Int
  character_name : String
deriving DecidableEq, Repr

/-- The state threaded through the people loop. -/
structure PeopleAcc where
  all_people : List (Int × String)
  movie_cast_list : List MovieCastRow
  directors_map : List (Int × Int)
deriving DecidableEq, Repr

/-- The crew scan: the first crew member whose job is "Director", if any
(the loop breaks at the first match). -/
def firstDirector : List CrewEntry → Option CrewEntry
  | [] => none
  | c :: rest => if c.job == "Director" then some c else firstDirector rest

/-- The resolved director id of a crew list. -/
def resolveDirector (crew : List CrewEntry) : Option Int :=
  (firstDirector crew).map (fun c => c.id)

/-- The actor loop for one movie over the first 10 cast entries: insert the
person if unseen and append the cast junction row. -/
def castFold (mid : Int) (actors : List CastEntry) (acc : PeopleAcc) : PeopleAcc :=
  actors.foldl
    (fun a actor =>
      { a with
        all_people := dictInsertIfAbsent a.all_people actor.id actor.name
        movie_cast_list := a.movie_cast_list ++
          [{ movie_id := mid, person_id := actor.id, character_name := actor.character }] })
    acc

/-- The body of the people loop for one movie: record the first director (if
any) in `directors_map` and `all_people`, then process the first 10 cast
entries. -/
def peopleStep (acc : PeopleAcc) (m : RawMovie) : PeopleAcc :=
  let acc1 :=
    match firstDirector m.crew with
    | some c =>
      { acc with
        directors_map := dictSetI acc.directors_map m.tmdb_id c.id
        all_people := dictInsertIfAbsent acc.all_people c.id c.name }
    | none => acc
  castFold m.tmdb_id (m.cast.take 10) acc1

/-- The second transform pass: builds `all_people`, `movie_cast_list` and
`directors_map`. -/
def peopleTransform (raw : List RawMovie) : PeopleAcc :=
  raw.foldl peopleStep { all_people := [], movie_cast_list := [], directors_map := [] }

/-! ## Transform: final movies table -/

/-- A row of the final `movies_df` (after `dropna` the director id is a
concrete integer). -/
structure MovieRow where
  id : Int
  title : String
  overview : String
  release_date : Date
  vote_average : Int
  director_id : Int
deriving DecidableEq, Repr

/-- `movies_df['director_id'] = movies_df['tmdb_id'].map(directors_map)`
followed by `dropna(subset=['director_id'])`: a row survives exactly when
the map has its id, and then carries the mapped director. -/
def moviesTransform (raw : List RawMovie) (dmap : List (Int × Int)) :
    List MovieRow :=
  raw.filterMap (fun m =>
    (dictLookupI dmap m.tmdb_id).map (fun did =>
      { id := m.tmdb_id
        title := m.title
        overview := m.overview
        release_date := m.release_date
        vote_average := m.vote_average
        director_id := did }))

/-- The five normalized tables handed to the Load phase. -/
structure NormalizedTables where
  movies : List MovieRow
  genres : List (Int × String)
  people : List (Int × String)
  movie_genres : List MovieGenreRow
  movie_cast : List MovieCastRow
deriving DecidableEq, Repr

/-- The whole Transform phase. -/
def transform (raw : List RawMovie) : NormalizedTables :=
  let g := genresTransform raw
  let p := peopleTransform raw
  { movies := moviesTransform raw p.directors_map
    genres := g.1
    people := p.all_people
    movie_genres := g.2
    movie_cast := p.movie_cast_list }

/-! ## Load phase -/

/-- The contents a named SQLite table can hold. -/
inductive DBTable where
  | moviesT (rows : List MovieRow)
  | genresT (rows : List (Int × String))
  | peopleT (rows : List (Int × String))
  | movieGenresT (rows : List MovieGenreRow)
  | movieCastT (rows : List MovieCastRow)
deriving DecidableEq

/-- The SQLite database file: a mapping from table name to contents. -/
def Store : Type := String → Option DBTable

/-- `df.to_sql(name, engine, if_exists='replace')`: drop any table of that
name and create it afresh with the given rows. -/
def to_sql (st : Store) (name : String) (t : DBTable) : Store :=
  fun n => if n = name then some t else st n

/-- The Load phase: the five `to_sql` calls in source order. -/
def loadAll (st : Store) (d : NormalizedTables) : Store :=
  let s1 := to_sql st "movies" (DBTable.moviesT d.movies)
  let s2 := to_sql s1 "genres" (DBTable.genresT d.genres)
  let s3 := to_sql s2 "people" (DBTable.peopleT d.people)
  let s4 := to_sql s3 "movie_genres" (DBTable.movieGenresT d.movie_genres)
  to_sql s4 "movie_cast" (DBTable.movieCastT d.movie_cast)

/-! ## Report phase: query 5

`query5_movies_after_2001` filters on `strftime('%Y', release_date) > '2001'`
— a byte-wise string comparison of the zero-padded 4-digit year against
"2001" — and sorts by `release_date DESC`. -/

/-- The four digits of `strftime('%Y', ...)` for a year up to 9999. -/
def yearDigits (y : Nat) : List Nat :=
  [y / 1000 % 10, y / 100 % 10, y / 10 % 10, y % 10]

/-- SQLite string `>` on digit strings: lexicographic comparison. -/
def lexGtDigits : List Nat → List Nat → Bool
  | a :: as, b :: bs =>
    if a > b then true else if a < b then false else lexGtDigits as bs
  | _ :: _, [] => true
  | [], _ => false

/-- A total order key for `ORDER BY release_date`. -/
def dateKey (d : Date) : Nat :=
  d.year * 10000 + d.month * 100 + d.day

/-- The fifth report query: `SELECT title, release_date FROM movies WHERE
strftime('%Y', release_date) > '2001' ORDER BY release_date DESC`. -/
def query5_movies_after_2001 (movies : List MovieRow) : List (String × Date) :=
  ((movies.filter (fun m =>
      lexGtDigits (yearDigits m.release_date.year) (yearDigits 2001))).map
    (fun m => (m.title, m.release_date))).mergeSort
    (fun a b => dateKey b.2 ≤ dateKey a.2)

/-! ## Report phase: batch execution

The report `__main__` block connects, runs the five queries in one `try`
block, catches the first exception, and in `finally` closes the connection
when one was opened. A query's outcome is abstracted as `Except`: `error`
models `pd.read_sql_query` raising. -/

/-- A result set, opaque for the purposes of the batch control flow. -/
structure QueryResult where
  rows : List (List String)
deriving DecidableEq, Repr

/-- The observable state of the report phase. -/
structure ReportState where
  connOpen : Bool
  executed : Nat
  reported : Option String
deriving DecidableEq, Repr

/-- The query loop: each query is attempted in order; the first failure is
caught by the `except` clause and ends the loop. -/
def runBatch : ReportState → List (Except String QueryResult) → ReportState
  | s, [] => s
  | s, Except.ok _ :: rest => runBatch { s with executed := s.executed + 1 } rest
  | s, Except.error e :: _ =>
    { s with executed := s.executed + 1, reported := some e }

/-- The `finally` clause: `if 'conn' in locals() and conn: conn.close()`. -/
def closeIfOpen (s : ReportState) : ReportState :=
  if s.connOpen then { s with connOpen := false } else s

/-- The whole report phase: connect (which may itself fail, in which case no
connection exists to close), run the batch, then the `finally` clause. -/
def reportPhase (connect : Except String Unit)
    (results : List (Except String QueryResult)) : ReportState :=
  closeIfOpen
    (match connect with
     | Except.error e => { connOpen := false, executed := 0, reported := some e }
     | Except.ok _ =>
       runBatch { connOpen := true, executed := 0, reported := none } results)

/-! ## Closed forms of the transform passes

The passes are `foldl` loops; for reasoning we relate them to flat streams
of encounters in the source's iteration order. -/

/-- The keys of a dict, in insertion order. -/
def dictKeys (d : List (Int × String)) : List Int :=
  d.map (fun e => e.1)

/-- The keys of the `Int → Int` dict. -/
def dictKeysI (d : List (Int × Int)) : List Int :=
  d.map (fun e => e.1)

/-- The `(id, name)` genre encounters, in iteration order. -/
def genreStream (raw : List RawMovie) : List (Int × String) :=
  raw.flatMap (fun m => m.genres.map (fun g => (g.id, g.name)))

/-- The junction rows the genre loop appends for one movie. -/
def mgRowsOf (m : RawMovie) : List MovieGenreRow :=
  m.genres.map (fun g => { movie_id := m.tmdb_id, genre_id := g.id })

/-- The `(id, name)` people encounters for one movie: its first director (if
any) and then its first 10 cast members. -/
def personEnc (m : RawMovie) : List (Int × String) :=
  ((firstDirector m.crew).toList.map (fun c => (c.id, c.name))) ++
    (m.cast.take 10).map (fun a => (a.id, a.name))

/-- All people encounters, in iteration order. -/
def personStream (raw : List RawMovie) : List (Int × String) :=
  raw.flatMap personEnc

/-- The cast junction rows the actor loop appends for one movie: the first
10 cast entries in billing order. -/
def castRowsOf (m : RawMovie) : List MovieCastRow :=
  (m.cast.take 10).map (fun a =>
    { movie_id := m.tmdb_id, person_id := a.id, character_name := a.character })

/-- The `(movie_id, director_id)` assignment one movie makes to
`directors_map`: one pair when the crew has a director, none otherwise. -/
def dirPairOf (m : RawMovie) : List (Int × Int) :=
  ((firstDirector m.crew).map (fun c => (m.tmdb_id, c.id))).toList

/-- The `(movie_id, director_id)` assignments made to `directors_map`. -/
def dirPairs (raw : List RawMovie) : List (Int × Int) :=
  raw.filterMap (fun m => (firstDirector m.crew).map (fun c => (m.tmdb_id, c.id)))

/-- Folding assignments through `dictSetI`. -/
def setFold (d : List (Int × Int)) (s : List (Int × Int)) : List (Int × Int) :=
  s.foldl (fun d e => dictSetI d e.1 e.2) d

/-! ### Concrete datasets used by counterexamples and witnesses -/

/-- One movie with a genre but no director: its junction row survives while
the movie itself is dropped. -/
def rawC1 : List RawMovie :=
  [{ tmdb_id := 1, title := "NoDirector", overview := "", release_date := ⟨2000, 1, 1⟩,
     vote_average := 0, genres := [{ id := 10, name := "Action" }], cast := [], crew := [] }]

/-- Two records sharing `tmdb_id = 1`: the first has a director, the second
has none, yet the second borrows the first's director through the map. -/
def rawC2 : List RawMovie :=
  [{ tmdb_id := 1, title := "A", overview := "", release_date := ⟨2000, 1, 1⟩,
     vote_average := 0, genres := [], cast := [],
     crew := [{ id := 5, name := "D", job := "Director" }] },
   { tmdb_id := 1, title := "B", overview := "", release_date := ⟨2001, 1, 1⟩,
     vote_average := 0, genres := [], cast := [], crew := [] }]

/-- The store of the query-5 scenario: releases dated 2000-01-01,
2001-12-31 and 2002-06-15. -/
def store3 : List MovieRow :=
  [{ id := 1, title := "M2000", overview := "", release_date := ⟨2000, 1, 1⟩,
     vote_average := 0, director_id := 1 },
   { id := 2, title := "M2001", overview := "", release_date := ⟨2001, 12, 31⟩,
     vote_average := 0, director_id := 1 },
   { id := 3, title := "M2002", overview := "", release_date := ⟨2002, 6, 15⟩,
     vote_average := 0, director_id := 1 }]

/-- A movie with id 7 whose crew has a director with id 5. -/
def movieWithDir : RawMovie :=
  { tmdb_id := 7, title := "WithDir", overview := "", release_date := ⟨1999, 1, 1⟩,
    vote_average := 0, genres := [], cast := [],
    crew := [{ id := 5, name := "D", job := "Director" }] }

/-- A movie with id 1 and no director. -/
def movieNoDir : RawMovie :=
  { tmdb_id := 1, title := "NoDir", overview := "", release_date := ⟨1999, 1, 1⟩,
    vote_average := 0, genres := [], cast := [], crew := [] }

/-- A dataset with distinct ids, one directed movie and one directorless. -/
def rawMix : List RawMovie := [movieWithDir, movieNoDir]

/-- The movies-table row `movieWithDir` turns into. -/
def movieWithDirRow : MovieRow :=
  { id := 7, title := "WithDir", overview := "", release_date := ⟨1999, 1, 1⟩,
    vote_average := 0, director_id := 5 }

/-! ### Dictionary lemmas -/

theorem dictHasKey_iff (d : List (Int × String)) (k : Int) :
    dictHasKey d k = true ↔ k ∈ dictKeys d := by
  induction d with
  | nil => simp [dictHasKey, dictKeys]
  | cons e rest ih =>
    simp only [dictHasKey, List.any_cons, Bool.or_eq_true, beq_iff_eq, dictKeys,
      List.map_cons, List.mem_cons] at *
    constructor
    · rintro (h | h)
      · exact Or.inl h.symm
      · exact Or.inr (ih.1 h)
    · rintro (h | h)
      · exact Or.inl h.symm
      · exact Or.inr (ih.2 h)

theorem dictLookup_eq_none_iff (d : List (Int × String)) (k : Int) :
    dictLookup d k = none ↔ k ∉ dictKeys d := by
  induction d with
  | nil => simp [dictLookup, dictKeys]
  | cons e rest ih =>
    by_cases h : e.1 = k
    · simp [dictLookup, List.find?_cons, dictKeys, h]
    · have hb : (e.1 == k) = false := by simpa using h
      have hne : ¬(k = e.1) := fun hh => h hh.symm
      simp only [dictLookup, List.find?_cons, hb, dictKeys, List.map_cons,
        List.mem_cons] at *
      rw [ih]
      tauto

theorem dictKeys_insertIfAbsent (d : List (Int × String)) (k : Int) (v : String) :
    dictKeys (dictInsertIfAbsent d k v) =
      if k ∈ dictKeys d then dictKeys d else dictKeys d ++ [k] := by
  by_cases h : k ∈ dictKeys d
  · simp [dictInsertIfAbsent, (dictHasKey_iff d k).2 h, h]
  · have hk : dictHasKey d k = false := by
      cases hb : dictHasKey d k
      · rfl
      · exact absurd ((dictHasKey_iff d k).1 hb) h
    rw [dictInsertIfAbsent, hk, if_neg h]
    simp [dictKeys]

theorem dictKeys_dedupFold_nodup (s : List (Int × String)) :
    ∀ d : List (Int × String), (dictKeys d).Nodup →
      (dictKeys (dedupFold d s)).Nodup := by
  induction s with
  | nil => intro d h; simpa [dedupFold] using h
  | cons e s ih =>
    intro d h
    have hstep : (dictKeys (dictInsertIfAbsent d e.1 e.2)).Nodup := by
      rw [dictKeys_insertIfAbsent]
      by_cases hm : e.1 ∈ dictKeys d
      · simpa [hm] using h
      · simpa [hm, List.nodup_append] using h
    simpa [dedupFold, List.foldl_cons] using ih _ hstep

theorem mem_dictKeys_dedupFold (s : List (Int × String)) :
    ∀ (d : List (Int × String)) (a : Int),
      a ∈ dictKeys (dedupFold d s) ↔ a ∈ dictKeys d ∨ a ∈ s.map (fun e => e.1) := by
  induction s with
  | nil => intro d a; simp [dedupFold]
  | cons e s ih =>
    intro d a
    have : dedupFold d (e :: s) = dedupFold (dictInsertIfAbsent d e.1 e.2) s := by
      simp [dedupFold, List.foldl_cons]
    rw [this, ih]
    rw [dictKeys_insertIfAbsent]
    by_cases hm : e.1 ∈ dictKeys d
    · simp only [if_pos hm, List.map_cons, List.mem_cons]
      constructor
      · rintro (h | h)
        · exact Or.inl h
        · exact Or.inr (Or.inr h)
      · rintro (h | h | h)
        · exact Or.inl h
        · exact Or.inl (h ▸ hm)
        · exact Or.inr h
    · simp only [if_neg hm, List.mem_append, List.mem_singleton, List.map_cons,
        List.mem_cons]
      tauto

theorem dictLookup_insertIfAbsent (d : List (Int × String)) (k : Int) (v : String)
    (a : Int) :
    dictLookup (dictInsertIfAbsent d k v) a =
      (dictLookup d a).or (if k = a then some v else none) := by
  by_cases h : dictHasKey d k
  · rw [dictInsertIfAbsent, if_pos h]
    by_cases hka : k = a
    · subst hka
      have hk : k ∈ dictKeys d := (dictHasKey_iff d k).1 h
      rcases hs : dictLookup d k with _ | v'
      · exact absurd ((dictLookup_eq_none_iff d k).1 hs) (by simpa using hk)
      · simp
    · simp [hka]
  · rw [dictInsertIfAbsent, if_neg h]
    rw [dictLookup, List.find?_append]
    rcases hs : List.find? (fun e => e.1 == a) d with _ | e
    · by_cases hka : k = a
      · subst hka
        simp [dictLookup, hs, List.find?]
      · have hba : (k == a) = false := by simpa using hka
        simp [dictLookup, hs, List.find?, hba, hka]
    · simp [dictLookup, hs]

theorem dictLookup_dedupFold (s : List (Int × String)) :
    ∀ (d : List (Int × String)) (a : Int),
      dictLookup (dedupFold d s) a =
        (dictLookup d a).or ((s.find? (fun e => e.1 == a)).map (fun e => e.2)) := by
  induction s with
  | nil => intro d a; simp [dedupFold]
  | cons e s ih =>
    intro d a
    have hf : dedupFold d (e :: s) = dedupFold (dictInsertIfAbsent d e.1 e.2) s := by
      simp [dedupFold, List.foldl_cons]
    rw [hf, ih, dictLookup_insertIfAbsent, Option.or_assoc]
    congr 1
    by_cases hka : e.1 = a
    · simp [List.find?_cons, hka]
    · have : (e.1 == a) = false := by simpa using hka
      simp [List.find?_cons, this, hka]

/-- First occurrence wins: looking up a key in a dict built from the empty
dict by insert-if-absent returns the name of the key's first encounter. -/
theorem dictLookup_dedupFold_nil (s : List (Int × String)) (a : Int) :
    dictLookup (dedupFold [] s) a =
      (s.find? (fun e => e.1 == a)).map (fun e => e.2) := by
  rw [dictLookup_dedupFold]
  simp [dictLookup]

/-! ### Closed forms of the passes -/

theorem genres_inner_fold (gs : List GenreEntry) (mid : Int) :
    ∀ (d : List (Int × String)) (l : List MovieGenreRow),
      gs.foldl (fun acc g => (dictInsertIfAbsent acc.1 g.id g.name,
          acc.2 ++ [{ movie_id := mid, genre_id := g.id }])) (d, l) =
        (dedupFold d (gs.map (fun g => (g.id, g.name))),
         l ++ gs.map (fun g => ({ movie_id := mid, genre_id := g.id } : MovieGenreRow))) := by
  induction gs with
  | nil => intro d l; simp [dedupFold]
  | cons g gs ih =>
    intro d l
    rw [List.foldl_cons, ih]
    simp [dedupFold, List.foldl_cons, List.append_assoc]

theorem genresStep_closed (m : RawMovie) (d : List (Int × String))
    (l : List MovieGenreRow) :
    genresStep (d, l) m =
      (dedupFold d (m.genres.map (fun g => (g.id, g.name))), l ++ mgRowsOf m) := by
  simpa [genresStep, mgRowsOf] using genres_inner_fold m.genres m.tmdb_id d l

theorem genresTransform_fold (raw : List RawMovie) :
    ∀ (d : List (Int × String)) (l : List MovieGenreRow),
      raw.foldl genresStep (d, l) =
        (dedupFold d (genreStream raw), l ++ raw.flatMap mgRowsOf) := by
  induction raw with
  | nil => intro d l; simp [dedupFold, genreStream]
  | cons m raw ih =>
    intro d l
    rw [List.foldl_cons, genresStep_closed, ih]
    simp [genreStream, List.flatMap_cons, dedupFold, List.foldl_append,
      List.append_assoc]

theorem genresTransform_closed (raw : List RawMovie) :
    genresTransform raw = (dedupFold [] (genreStream raw), raw.flatMap mgRowsOf) := by
  simpa [genresTransform] using genresTransform_fold raw [] []

theorem castFold_closed (mid : Int) (actors : List CastEntry) :
    ∀ acc : PeopleAcc, castFold mid actors acc =
      { all_people := dedupFold acc.all_people (actors.map (fun a => (a.id, a.name)))
        movie_cast_list := acc.movie_cast_list ++ actors.map (fun a =>
          ({ movie_id := mid, person_id := a.id, character_name := a.character } :
            MovieCastRow))
        directors_map := acc.directors_map } := by
  induction actors with
  | nil => intro acc; simp [castFold, dedupFold]
  | cons a actors ih =>
    intro acc
    have hstep : castFold mid (a :: actors) acc =
        castFold mid actors
          { acc with
            all_people := dictInsertIfAbsent acc.all_people a.id a.name
            movie_cast_list := acc.movie_cast_list ++
              [{ movie_id := mid, person_id := a.id, character_name := a.character }] } :=
      rfl
    rw [hstep, ih]
    simp [dedupFold, List.foldl_cons, List.append_assoc]

theorem dirPairs_cons (m : RawMovie) (raw : List RawMovie) :
    dirPairs (m :: raw) = dirPairOf m ++ dirPairs raw := by
  cases hd : firstDirector m.crew <;>
    simp [dirPairs, dirPairOf, List.filterMap_cons, hd]

theorem peopleStep_closed (acc : PeopleAcc) (m : RawMovie) :
    peopleStep acc m =
      { all_people := dedupFold acc.all_people (personEnc m)
        movie_cast_list := acc.movie_cast_list ++ castRowsOf m
        directors_map := setFold acc.directors_map (dirPairOf m) } := by
  cases hd : firstDirector m.crew with
  | none =>
    simp [peopleStep, hd, castFold_closed, personEnc, castRowsOf, dirPairOf, setFold]
  | some c =>
    simp [peopleStep, hd, castFold_closed, personEnc, castRowsOf, dirPairOf, setFold,
      dedupFold, List.foldl_cons]

theorem peopleTransform_fold (raw : List RawMovie) :
    ∀ acc : PeopleAcc, raw.foldl peopleStep acc =
      { all_people := dedupFold acc.all_people (personStream raw)
        movie_cast_list := acc.movie_cast_list ++ raw.flatMap castRowsOf
        directors_map := setFold acc.directors_map (dirPairs raw) } := by
  induction raw with
  | nil => intro acc; simp [personStream, dedupFold, setFold, dirPairs]
  | cons m raw ih =>
    intro acc
    rw [List.foldl_cons, peopleStep_closed, ih]
    simp [personStream, List.flatMap_cons, dedupFold, setFold, List.foldl_append,
      List.append_assoc, dirPairs_cons]

theorem peopleTransform_closed (raw : List RawMovie) :
    peopleTransform raw =
      { all_people := dedupFold [] (personStream raw)
        movie_cast_list := raw.flatMap castRowsOf
        directors_map := setFold [] (dirPairs raw) } := by
  simpa [peopleTransform] using
    peopleTransform_fold raw { all_people := [], movie_cast_list := [], directors_map := [] }

/-! ### Directors-map lemmas -/

theorem dictLookupI_eq_none_iff (d : List (Int × Int)) (k : Int) :
    dictLookupI d k = none ↔ k ∉ dictKeysI d := by
  induction d with
  | nil => simp [dictLookupI, dictKeysI]
  | cons e rest ih =>
    by_cases h : e.1 = k
    · simp [dictLookupI, List.find?_cons, dictKeysI, h]
    · have hb : (e.1 == k) = false := by simpa using h
      have hne : ¬(k = e.1) := fun hh => h hh.symm
      simp only [dictLookupI, List.find?_cons, hb, dictKeysI, List.map_cons,
        List.mem_cons] at *
      rw [ih]
      tauto

theorem mem_dictKeysI_dictSetI (d : List (Int × Int)) (k v : Int) (a : Int) :
    a ∈ dictKeysI (dictSetI d k v) ↔ a ∈ dictKeysI d ∨ a = k := by
  by_cases h : d.any (fun e => e.1 == k)
  · rw [dictSetI, if_pos h]
    have hkeys : dictKeysI (d.map (fun e => if e.1 == k then (k, v) else e)) =
        dictKeysI d := by
      simp only [dictKeysI, List.map_map]
      apply List.map_congr_left
      intro e he
      by_cases hek : e.1 = k
      · simp [hek]
      · simp [hek]
    rw [hkeys]
    have hk : k ∈ dictKeysI d := by
      rw [List.any_eq_true] at h
      obtain ⟨e, he, hek⟩ := h
      exact List.mem_map.2 ⟨e, he, by simpa using hek⟩
    constructor
    · exact Or.inl
    · rintro (ha | rfl)
      · exact ha
      · exact hk
  · rw [dictSetI, if_neg h]
    simp [dictKeysI]

theorem mem_dictKeysI_setFold (s : List (Int × Int)) :
    ∀ (d : List (Int × Int)) (a : Int),
      a ∈ dictKeysI (setFold d s) ↔ a ∈ dictKeysI d ∨ a ∈ s.map (fun e => e.1) := by
  induction s with
  | nil => intro d a; simp [setFold]
  | cons e s ih =>
    intro d a
    have hf : setFold d (e :: s) = setFold (dictSetI d e.1 e.2) s := by
      simp [setFold]
    rw [hf, ih, mem_dictKeysI_dictSetI]
    simp only [List.map_cons, List.mem_cons]
    tauto

/-- What membership in the final movies table means: the row was built from
a raw record whose id the directors map resolves, and it carries exactly
that record's fields with the mapped director id. -/
theorem moviesTransform_spec (raw : List RawMovie) (dmap : List (Int × Int))
    (row : MovieRow) (hrow : row ∈ moviesTransform raw dmap) :
    dictLookupI dmap row.id = some row.director_id ∧
    ∃ m ∈ raw, row.id = m.tmdb_id := by
  rw [moviesTransform, List.mem_filterMap] at hrow
  obtain ⟨m, hm, hf⟩ := hrow
  rcases hl : dictLookupI dmap m.tmdb_id with _ | did
  · rw [hl] at hf
    simp at hf
  · rw [hl] at hf
    simp only [Option.map_some'] at hf
    injection hf with hf
    subst hf
    exact ⟨by simpa using hl, m, hm, rfl⟩

/-! ## Claim theorems -/

/-- C3: for every sequence of 3 page responses, `fetch_top_movies` returns
at most 50 summaries; when all pages are 200 it returns the concatenation
of their results truncated to 50, and whenever any page is non-200 it
returns the empty sequence. -/
theorem c3_fetch_top_movies (p1 p2 p3 : PageResponse) :
    (fetch_top_movies [p1, p2, p3]).length ≤ 50 ∧
    fetch_top_movies [p1, p2, p3] =
      (if p1.status_code = 200 ∧ p2.status_code = 200 ∧ p3.status_code = 200 then
        ((p1.results ++ p2.results) ++ p3.results).take 50
      else []) := by
  have heq : fetch_top_movies [p1, p2, p3] =
      (if p1.status_code = 200 ∧ p2.status_code = 200 ∧ p3.status_code = 200 then
        ((p1.results ++ p2.results) ++ p3.results).take 50
      else []) := by
    by_cases h1 : p1.status_code = 200 <;>
      by_cases h2 : p2.status_code = 200 <;>
        by_cases h3 : p3.status_code = 200 <;>
          simp [fetch_top_movies, fetchPages, h1, h2, h3]
  refine ⟨?_, heq⟩
  rw [heq]
  split
  · simp
  · simp

/-- C4: the cast pass produces, for each movie record, exactly the rows of
its first 10 cast entries in billing order; in particular the number of
MovieCast rows per record is min(10, length of its cast list). -/
theorem c4_movie_cast_rows (raw : List RawMovie) :
    (peopleTransform raw).movie_cast_list = raw.flatMap castRowsOf ∧
    ∀ m : RawMovie, (castRowsOf m).length = min 10 m.cast.length := by
  refine ⟨by simp [peopleTransform_closed], ?_⟩
  intro m
  simp [castRowsOf]

/-- C5: the crew scan resolves the first crew member with job "Director",
and no later crew entry changes the result. -/
theorem c5_first_director_wins (pre post : List CrewEntry) (c : CrewEntry)
    (hpre : ∀ x ∈ pre, x.job ≠ "Director") (hc : c.job = "Director") :
    resolveDirector (pre ++ c :: post) = some c.id := by
  induction pre with
  | nil => simp [resolveDirector, firstDirector, hc]
  | cons x pre ih =>
    have hx : x.job ≠ "Director" := hpre x (by simp)
    have hb : (x.job == "Director") = false := by simpa using hx
    have htail : ∀ y ∈ pre, y.job ≠ "Director" := fun y hy => hpre y (by simp [hy])
    simpa [resolveDirector, firstDirector, hb] using ih htail

/-- Witness for C5 at the spec's scenario: crew
`[{job:Writer}, {job:Director, id:5}, {job:Director, id:6}]` resolves to 5. -/
theorem c5_first_director_wins_witness :
    resolveDirector
      [{ id := 1, name := "W", job := "Writer" },
       { id := 5, name := "A", job := "Director" },
       { id := 6, name := "B", job := "Director" }] = some 5 :=
  c5_first_director_wins [{ id := 1, name := "W", job := "Writer" }]
    [{ id := 6, name := "B", job := "Director" }]
    { id := 5, name := "A", job := "Director" } (by decide) (by decide)

/-- C8: loading the five normalized tables twice with replace semantics
leaves the store in the same state as loading them once. -/
theorem c8_load_idempotent (st : Store) (d : NormalizedTables) :
    loadAll (loadAll st d) d = loadAll st d := by
  funext n
  simp only [loadAll, to_sql]
  split_ifs <;> rfl

/-- C10: a fetched summary whose id is missing or 0 is skipped entirely by
the extract loop — no detail/credits fetch is issued for it, it contributes
no combined record, and consequently no row of any transformed table. -/
theorem c10_falsy_id_skipped (fetch : Int → Option (Details × Credits))
    (pre post : List MovieSummary) (s : MovieSummary)
    (hs : s.id = none ∨ s.id = some 0) :
    extractPhase fetch (pre ++ s :: post) = extractPhase fetch (pre ++ post) ∧
    transform (extractPhase fetch (pre ++ s :: post)).2 =
      transform (extractPhase fetch (pre ++ post)).2 := by
  have hstep : ∀ acc, extractStep fetch acc s = acc := by
    intro acc
    rcases hs with h | h <;> simp [extractStep, h]
  have h1 : extractPhase fetch (pre ++ s :: post) = extractPhase fetch (pre ++ post) := by
    simp [extractPhase, List.foldl_append, List.foldl_cons, hstep]
  exact ⟨h1, by rw [h1]⟩

/-- Witness for C10: a summary with no id contributes nothing. -/
theorem c10_falsy_id_skipped_witness :
    extractPhase (fun _ => none) ([] ++ { id := none, title := "X" } :: []) =
      extractPhase (fun _ => none) ([] ++ []) ∧
    transform (extractPhase (fun _ => none)
        ([] ++ { id := none, title := "X" } :: [])).2 =
      transform (extractPhase (fun _ => none) ([] ++ [])).2 :=
  c10_falsy_id_skipped (fun _ => none) [] [] { id := none, title := "X" } (Or.inl rfl)

/-- C6: the genre and people dictionaries have pairwise-distinct keys, and
looking any id up yields the name of that id's first encounter in the
pass's iteration order — later encounters never overwrite it. -/
theorem c6_dedup_first_wins (raw : List RawMovie) :
    (dictKeys (transform raw).genres).Nodup ∧
    (dictKeys (transform raw).people).Nodup ∧
    (∀ k, dictLookup (transform raw).genres k =
      ((genreStream raw).find? (fun e => e.1 == k)).map (fun e => e.2)) ∧
    (∀ k, dictLookup (transform raw).people k =
      ((personStream raw).find? (fun e => e.1 == k)).map (fun e => e.2)) := by
  have hg : (transform raw).genres = dedupFold [] (genreStream raw) := by
    simp [transform, genresTransform_closed]
  have hp : (transform raw).people = dedupFold [] (personStream raw) := by
    simp [transform, peopleTransform_closed]
  refine ⟨?_, ?_, ?_, ?_⟩
  · rw [hg]; exact dictKeys_dedupFold_nodup _ [] (by simp [dictKeys])
  · rw [hp]; exact dictKeys_dedupFold_nodup _ [] (by simp [dictKeys])
  · intro k; rw [hg, dictLookup_dedupFold_nil]
  · intro k; rw [hp, dictLookup_dedupFold_nil]

/-- C1 counterexample: for the dataset `rawC1` (one movie with a genre and
no director) the movie is dropped but its movie_genres row remains, so that
row references no row of the persisted movies table. -/
theorem c1_counterexample :
    ¬ (∀ row ∈ (transform rawC1).movie_genres,
        ∃ mrow ∈ (transform rawC1).movies, mrow.id = row.movie_id) := by
  decide

/-- C1 amended: every movie_genres row's genre id is a key of the genres
table and every movie_cast row's person id is a key of the people table;
every junction row's movie id is the id of some extracted record — but only
of a record, not necessarily of a row of the persisted movies table, since
junction rows of movies dropped for lacking a director are kept. -/
theorem c1_amended_junction_refs (raw : List RawMovie) :
    (∀ row ∈ (transform raw).movie_genres,
        row.genre_id ∈ dictKeys (transform raw).genres ∧
        row.movie_id ∈ raw.map (fun m => m.tmdb_id)) ∧
    (∀ row ∈ (transform raw).movie_cast,
        row.person_id ∈ dictKeys (transform raw).people ∧
        row.movie_id ∈ raw.map (fun m => m.tmdb_id)) := by
  have hg : (transform raw).genres = dedupFold [] (genreStream raw) := by
    simp [transform, genresTransform_closed]
  have hp : (transform raw).people = dedupFold [] (personStream raw) := by
    simp [transform, peopleTransform_closed]
  have hmg : (transform raw).movie_genres = raw.flatMap mgRowsOf := by
    simp [transform, genresTransform_closed]
  have hmc : (transform raw).movie_cast = raw.flatMap castRowsOf := by
    simp [transform, peopleTransform_closed]
  constructor
  · intro row hrow
    rw [hmg, List.mem_flatMap] at hrow
    obtain ⟨m, hm, hr⟩ := hrow
    rw [mgRowsOf, List.mem_map] at hr
    obtain ⟨g, hgm, rfl⟩ := hr
    constructor
    · rw [hg]
      rw [mem_dictKeys_dedupFold]
      refine Or.inr ?_
      rw [List.mem_map]
      refine ⟨(g.id, g.name), ?_, rfl⟩
      rw [genreStream, List.mem_flatMap]
      exact ⟨m, hm, List.mem_map.2 ⟨g, hgm, rfl⟩⟩
    · exact List.mem_map.2 ⟨m, hm, rfl⟩
  · intro row hrow
    rw [hmc, List.mem_flatMap] at hrow
    obtain ⟨m, hm, hr⟩ := hrow
    rw [castRowsOf, List.mem_map] at hr
    obtain ⟨a, ham, rfl⟩ := hr
    constructor
    · rw [hp]
      rw [mem_dictKeys_dedupFold]
      refine Or.inr ?_
      rw [List.mem_map]
      refine ⟨(a.id, a.name), ?_, rfl⟩
      rw [personStream, List.mem_flatMap]
      refine ⟨m, hm, ?_⟩
      rw [personEnc, List.mem_append]
      exact Or.inr (List.mem_map.2 ⟨a, ham, rfl⟩)
    · exact List.mem_map.2 ⟨m, hm, rfl⟩

/-- Witness for C1's amended theorem at `rawC1` and its junction row. -/
theorem c1_amended_junction_refs_witness :
    { movie_id := 1, genre_id := 10 } ∈ (transform rawC1).movie_genres ∧
    (10 : Int) ∈ dictKeys (transform rawC1).genres ∧
    (1 : Int) ∈ rawC1.map (fun m => m.tmdb_id) := by
  have hmem : ({ movie_id := 1, genre_id := 10 } : MovieGenreRow) ∈
      (transform rawC1).movie_genres := by decide
  have h := (c1_amended_junction_refs rawC1).1 _ hmem
  exact ⟨hmem, h.1, h.2⟩

/-- C2 counterexample: in `rawC2` two records share `tmdb_id = 1`; the
record titled "B" has no crew member with job "Director", yet the final
movies table keeps its row (it borrows the other record's director via the
id-keyed map), so the claim's universal exclusion fails. -/
theorem c2_counterexample :
    ¬ (∀ m ∈ rawC2, resolveDirector m.crew = none →
        ∀ row ∈ (transform rawC2).movies, row.title ≠ m.title) := by
  decide

/-- C2 amended: every persisted movie row carries the director id the
directors map resolves for its id (never absent), and — provided the
extracted records have pairwise-distinct ids, which the counterexample
shows is needed — every movie whose crew has no "Director" entry is
excluded from the final movies table. -/
theorem c2_amended_director_filter (raw : List RawMovie) :
    (∀ row ∈ (transform raw).movies,
        dictLookupI (peopleTransform raw).directors_map row.id =
          some row.director_id) ∧
    ((raw.map (fun m => m.tmdb_id)).Nodup →
      ∀ m ∈ raw, resolveDirector m.crew = none →
        ∀ row ∈ (transform raw).movies, row.id ≠ m.tmdb_id) := by
  have hmov : (transform raw).movies =
      moviesTransform raw (peopleTransform raw).directors_map := by
    simp [transform]
  constructor
  · intro row hrow
    rw [hmov] at hrow
    exact (moviesTransform_spec _ _ _ hrow).1
  · intro hnodup m hm hnone row hrow heq
    rw [hmov] at hrow
    have hlook := (moviesTransform_spec _ _ _ hrow).1
    rw [heq] at hlook
    have hkey : m.tmdb_id ∈ dictKeysI (peopleTransform raw).directors_map := by
      by_contra hnot
      have hn := (dictLookupI_eq_none_iff _ _).2 hnot
      rw [hn] at hlook
      exact Option.noConfusion hlook
    have hdm : (peopleTransform raw).directors_map = setFold [] (dirPairs raw) := by
      simp [peopleTransform_closed]
    rw [hdm, mem_dictKeysI_setFold] at hkey
    rcases hkey with h | h
    · simp [dictKeysI] at h
    · rw [List.mem_map] at h
      obtain ⟨p, hp, hfst⟩ := h
      rw [dirPairs, List.mem_filterMap] at hp
      obtain ⟨m2, hm2, hsome⟩ := hp
      rcases hfd : firstDirector m2.crew with _ | c
      · rw [hfd] at hsome
        exact Option.noConfusion hsome
      · rw [hfd] at hsome
        simp only [Option.map_some'] at hsome
        injection hsome with hsome
        subst hsome
        have hmm : m2 = m :=
          List.inj_on_of_nodup_map hnodup hm2 hm (by simpa using hfst)
        rw [hmm] at hfd
        rw [resolveDirector, hfd] at hnone
        exact Option.noConfusion hnone

/-- Witness for C2's amended theorem on the distinct-id dataset `rawMix`:
the directed movie's row resolves director 5, and the surviving row's id is
not the directorless movie's id. -/
theorem c2_amended_director_filter_witness :
    dictLookupI (peopleTransform rawMix).directors_map movieWithDirRow.id =
      some movieWithDirRow.director_id ∧
    movieWithDirRow.id ≠ movieNoDir.tmdb_id :=
  ⟨(c2_amended_director_filter rawMix).1 movieWithDirRow (by decide),
   (c2_amended_director_filter rawMix).2 (by decide) movieNoDir (by decide) rfl
     movieWithDirRow (by decide)⟩

theorem closeIfOpen_connOpen (s : ReportState) : (closeIfOpen s).connOpen = false := by
  cases h : s.connOpen <;> simp [closeIfOpen, h]

theorem runBatch_error (pre : List (Except String QueryResult)) :
    ∀ (s : ReportState) (post : List (Except String QueryResult)) (e : String),
      (∀ x ∈ pre, ∃ r, x = Except.ok r) →
      runBatch s (pre ++ Except.error e :: post) =
        { connOpen := s.connOpen, executed := s.executed + pre.length + 1,
          reported := some e } := by
  induction pre with
  | nil =>
    intro s post e _
    simp [runBatch]
  | cons x pre ih =>
    intro s post e hok
    obtain ⟨r, rfl⟩ := hok x (by simp)
    rw [List.cons_append]
    show runBatch { s with executed := s.executed + 1 } (pre ++ Except.error e :: post) = _
    rw [ih _ post e (fun y hy => hok y (by simp [hy]))]
    simp [ReportState.mk.injEq]
    omega

/-- C9: the report batch stops at the first failing query (later queries in
the batch are not executed), the error is reported, and in every run the
store connection is not left open at the end of the phase. -/
theorem c9_report_abort_and_release (connect : Except String Unit)
    (results pre post : List (Except String QueryResult)) (e : String)
    (hok : ∀ x ∈ pre, ∃ r, x = Except.ok r)
    (hres : results = pre ++ Except.error e :: post) :
    (∀ (c : Except String Unit) (rs : List (Except String QueryResult)),
        (reportPhase c rs).connOpen = false) ∧
    (connect = Except.ok () →
      (reportPhase connect results).executed = pre.length + 1 ∧
      (reportPhase connect results).reported = some e) := by
  constructor
  · intro c rs
    have hrp : (reportPhase c rs).connOpen =
        (closeIfOpen (match c with
          | Except.error e => { connOpen := false, executed := 0, reported := some e }
          | Except.ok _ =>
            runBatch { connOpen := true, executed := 0, reported := none } rs)).connOpen :=
      rfl
    rw [hrp]
    exact closeIfOpen_connOpen _
  · intro hc
    subst hc
    subst hres
    have hrp : reportPhase (Except.ok ()) (pre ++ Except.error e :: post) =
        closeIfOpen (runBatch { connOpen := true, executed := 0, reported := none }
          (pre ++ Except.error e :: post)) := rfl
    rw [hrp, runBatch_error pre _ post e hok]
    simp [closeIfOpen]

/-- Witness for C9: with queries `[ok, error "boom"]` exactly 2 queries are
attempted, "boom" is reported, and the connection ends closed. -/
theorem c9_report_abort_and_release_witness :
    (reportPhase (Except.ok ())
      [Except.ok { rows := [] }, Except.error "boom"]).connOpen = false ∧
    (reportPhase (Except.ok ())
      [Except.ok { rows := [] }, Except.error "boom"]).executed = 2 ∧
    (reportPhase (Except.ok ())
      [Except.ok { rows := [] }, Except.error "boom"]).reported = some "boom" := by
  have h := c9_report_abort_and_release (Except.ok ())
    [Except.ok { rows := [] }, Except.error "boom"] [Except.ok { rows := [] }] []
    "boom" (fun x hx => ⟨{ rows := [] }, by simpa using hx⟩) rfl
  exact ⟨h.1 _ _, (h.2 rfl).1, (h.2 rfl).2⟩

theorem lexGt_year_iff (y : Nat) (hy : y ≤ 9999) :
    lexGtDigits (yearDigits y) (yearDigits 2001) = true ↔ 2001 < y := by
  have h2001 : yearDigits 2001 = [2, 0, 0, 1] := rfl
  rw [h2001]
  simp only [yearDigits, lexGtDigits]
  split_ifs <;> simp <;> omega

/-- C7: the fifth query returns exactly the movies whose release year is
strictly greater than 2001 (as a permutation of that filter), sorted by
release date descending; on the three-date scenario store it returns only
the 2002-06-15 row. The year filter in the source compares
`strftime('%Y', ...)` with the string "2001", which agrees with the numeric
comparison for the years SQLite dates can carry (≤ 9999). -/
theorem c7_query5_after_2001 :
    (∀ tbl : List MovieRow, (∀ m ∈ tbl, m.release_date.year ≤ 9999) →
      (query5_movies_after_2001 tbl).Perm
        ((tbl.filter (fun m => decide (2001 < m.release_date.year))).map
          (fun m => (m.title, m.release_date))) ∧
      (query5_movies_after_2001 tbl).Pairwise
        (fun a b => dateKey b.2 ≤ dateKey a.2)) ∧
    query5_movies_after_2001 store3 =
      [("M2002", { year := 2002, month := 6, day := 15 })] := by
  constructor
  · intro tbl hy
    have hf : tbl.filter (fun m =>
        lexGtDigits (yearDigits m.release_date.year) (yearDigits 2001)) =
        tbl.filter (fun m => decide (2001 < m.release_date.year)) := by
      apply List.filter_congr
      intro m hm
      have hiff := lexGt_year_iff m.release_date.year (hy m hm)
      by_cases h : 2001 < m.release_date.year
      · simp [h, hiff.2 h]
      · have hfalse : lexGtDigits (yearDigits m.release_date.year)
            (yearDigits 2001) = false := by
          cases hb : lexGtDigits (yearDigits m.release_date.year) (yearDigits 2001)
          · rfl
          · exact absurd (hiff.1 hb) h
        simp [hfalse, h]
    constructor
    · unfold query5_movies_after_2001
      rw [hf]
      exact List.mergeSort_perm _ _
    · unfold query5_movies_after_2001
      refine List.Pairwise.imp ?_ (List.sorted_mergeSort ?_ ?_ _)
      · intro a b h
        exact of_decide_eq_true h
      · intro a b c hab hbc
        have h1 := of_decide_eq_true hab
        have h2 := of_decide_eq_true hbc
        exact decide_eq_true (le_trans h2 h1)
      · intro a b
        rcases Nat.le_total (dateKey b.2) (dateKey a.2) with h | h <;>
          simp [decide_eq_true h]
  · unfold query5_movies_after_2001
    have hfs : store3.filter (fun m =>
        lexGtDigits (yearDigits m.release_date.year) (yearDigits 2001)) =
        [{ id := 3, title := "M2002", overview := "", release_date := ⟨2002, 6, 15⟩,
           vote_average := 0, director_id := 1 }] := by decide
    rw [hfs]
    simp

/-- Witness for C7 at the scenario store. -/
theorem c7_query5_after_2001_witness :
    (query5_movies_after_2001 store3).Perm
      ((store3.filter (fun m => decide (2001 < m.release_date.year))).map
        (fun m => (m.title, m.release_date))) ∧
    (query5_movies_after_2001 store3).Pairwise
      (fun a b => dateKey b.2 ≤ dateKey a.2) :=
  c7_query5_after_2001.1 store3 (by decide)

end MoviesAPI
